import Mathlib

/-!
Verification of the TRADECOINco trading-dashboard core (src/App.jsx).

The embedded slice is the balance ledger and trade-execution logic: the four
trade handlers (deposit, buy, sell, withdraw), the store-write helper
updateBalance, and the onSnapshot listener's falsy-coalescing balance load.
Balances and amounts are modelled as exact rationals; a JavaScript numeric
input that may be NaN is modelled by the Amount type below.
-/

/-- Balance record persisted per user, schema exactly two number fields
fiat and coin (src/App.jsx, document at artifacts/appId/users/userId). -/
structure Balance where
  fiat : ℚ
  coin : ℚ
deriving DecidableEq, Repr

/-- JavaScript numeric input as it reaches a handler after parseFloat:
either NaN or a real number, the latter modelled as a rational. -/
inductive Amount where
  | nan : Amount
  | num : ℚ → Amount
deriving DecidableEq, Repr

/-- Guard shared by the deposit, buy and sell handlers:
tradeAmount <= 0 or isNaN tradeAmount. In JavaScript NaN <= 0 is false and
isNaN then catches it, so NaN is invalid, and a number is invalid exactly
when it is at most zero. -/
def Amount.isInvalid : Amount → Bool
  | .nan => true
  | .num q => decide (q ≤ 0)

/-- Numeric value of an amount; only reached by handler arithmetic after
the invalid-amount guard has excluded NaN. -/
def Amount.toRat : Amount → ℚ
  | .nan => 0
  | .num q => q

/-- Fixed simulated coin price, 68500.00 fiat per coin (src/App.jsx:13). -/
def SIMULATED_COIN_PRICE : ℚ := 68500

/-- Minimum-withdrawal threshold, 100, compared against the coin balance
(src/App.jsx:14 and handleWithdraw). -/
def MIN_WITHDRAWAL_AMOUNT : ℚ := 100

/-- User intent dispatched from the modal buttons; the withdraw handler
ignores its amount. -/
inductive Intent where
  | Deposit : Amount → Intent
  | Buy : Amount → Intent
  | Sell : Amount → Intent
  | Withdraw : Amount → Intent
deriving DecidableEq, Repr

/-- Rejection reasons of the ledger, one per early-return setMessage branch
of the handlers. -/
inductive RejectReason where
  | InvalidAmount
  | InsufficientFiat
  | InsufficientCoin
  | BelowMinimum
deriving DecidableEq, Repr

/-- Pure ledger transform of the four handlers (validation and balance
arithmetic, src/App.jsx:130-188), with the coin price a parameter; the
handlers instantiate it at SIMULATED_COIN_PRICE. -/
def Ledger.apply (current : Balance) (intent : Intent) (price : ℚ) :
    Except RejectReason Balance :=
  match intent with
  | .Deposit a =>
      if a.isInvalid then .error .InvalidAmount
      else .ok ⟨current.fiat + a.toRat, current.coin⟩
  | .Buy a =>
      if a.isInvalid then .error .InvalidAmount
      else if current.fiat < a.toRat then .error .InsufficientFiat
      else .ok ⟨current.fiat - a.toRat, current.coin + a.toRat / price⟩
  | .Sell a =>
      if a.isInvalid then .error .InvalidAmount
      else if current.coin < a.toRat / price then .error .InsufficientCoin
      else .ok ⟨current.fiat + a.toRat, current.coin - a.toRat / price⟩
  | .Withdraw _ =>
      if current.coin < MIN_WITHDRAWAL_AMOUNT then .error .BelowMinimum
      else .ok ⟨current.fiat, 0⟩

/-- User-visible messages, one constructor per distinct setMessage string in
the handlers, plus empty for the initial state and notReady, which the spec
names for an absent identity or store but the code never produces. -/
inductive Msg where
  | empty
  | invalidAmount
  | insufficientFiat
  | insufficientCoin
  | belowMinimum
  | depositSuccess
  | buySuccess
  | sellSuccess
  | withdrawSuccess
  | notReady
deriving DecidableEq, Repr

/-- Message a handler surfaces for each ledger rejection. -/
def rejectMessage : RejectReason → Msg
  | .InvalidAmount => .invalidAmount
  | .InsufficientFiat => .insufficientFiat
  | .InsufficientCoin => .insufficientCoin
  | .BelowMinimum => .belowMinimum

/-- Session state a handler can observe: whether the db handle and the user
id are resolved, the last balance snapshot pushed by the listener, and the
current message. -/
structure SessionState where
  hasDb : Bool
  hasUser : Bool
  userBalance : Balance
  message : Msg
deriving DecidableEq, Repr

/-- updateBalance (src/App.jsx:110-124): returns silently when the db or the
user id is absent; otherwise issues a full-document store write and sets the
success message. The write is modelled on its success path; the local
snapshot is never touched here, it is refreshed by the onSnapshot listener.
The second component is the emitted store write, if any. -/
def updateBalance (st : SessionState) (newFiat newCoin : ℚ)
    (successMessage : Msg) : SessionState × Option Balance :=
  if !st.hasDb || !st.hasUser then (st, none)
  else ({ st with message := successMessage }, some ⟨newFiat, newCoin⟩)

/-- handleSimulatedDeposit (src/App.jsx:130-136): credits the amount to
fiat after the invalid-amount guard. -/
def handleSimulatedDeposit (st : SessionState) (tradeAmount : Amount) :
    SessionState × Option Balance :=
  if tradeAmount.isInvalid then ({ st with message := .invalidAmount }, none)
  else
    let newFiat := st.userBalance.fiat + tradeAmount.toRat
    updateBalance st newFiat st.userBalance.coin .depositSuccess

/-- handleBuy (src/App.jsx:139-155): spends fiat for coin at the simulated
price. -/
def handleBuy (st : SessionState) (tradeAmount : Amount) :
    SessionState × Option Balance :=
  if tradeAmount.isInvalid then ({ st with message := .invalidAmount }, none)
  else
    let costInFiat := tradeAmount.toRat
    let coinsReceived := costInFiat / SIMULATED_COIN_PRICE
    if st.userBalance.fiat < costInFiat then
      ({ st with message := .insufficientFiat }, none)
    else
      updateBalance st (st.userBalance.fiat - costInFiat)
        (st.userBalance.coin + coinsReceived) .buySuccess

/-- handleSell (src/App.jsx:158-175): sells the coins worth the requested
fiat amount at the simulated price. -/
def handleSell (st : SessionState) (tradeAmount : Amount) :
    SessionState × Option Balance :=
  if tradeAmount.isInvalid then ({ st with message := .invalidAmount }, none)
  else
    let coinsToSell := tradeAmount.toRat / SIMULATED_COIN_PRICE
    if st.userBalance.coin < coinsToSell then
      ({ st with message := .insufficientCoin }, none)
    else
      updateBalance st (st.userBalance.fiat + tradeAmount.toRat)
        (st.userBalance.coin - coinsToSell) .sellSuccess

/-- handleWithdraw (src/App.jsx:178-188): withdraws the entire coin balance
when it reaches the minimum; no amount is consulted. -/
def handleWithdraw (st : SessionState) : SessionState × Option Balance :=
  if st.userBalance.coin < MIN_WITHDRAWAL_AMOUNT then
    ({ st with message := .belowMinimum }, none)
  else
    updateBalance st st.userBalance.fiat 0 .withdrawSuccess

/-- Session-level dispatch of one intent to its handler, mirroring the modal
action handlers; Withdraw discards its amount. -/
def TradeSession.execute (st : SessionState) :
    Intent → SessionState × Option Balance
  | .Deposit a => handleSimulatedDeposit st a
  | .Buy a => handleBuy st a
  | .Sell a => handleSell st a
  | .Withdraw _ => handleWithdraw st

/-- Stored document as the snapshot listener may find it: each field absent,
NaN, or a number. -/
structure StoredDoc where
  fiat : Option Amount
  coin : Option Amount
deriving DecidableEq, Repr

/-- Falsy-coalescing field read, data.fiat || 0.00 (src/App.jsx:91-92): an
absent field, NaN and 0 are falsy and yield 0; any other number passes
through unchanged. -/
def coalesceField : Option Amount → ℚ
  | none => 0
  | some .nan => 0
  | some (.num q) => if q = 0 then 0 else q

/-- onSnapshot listener body for an existing document (src/App.jsx:87-93):
the local balance snapshot built from the stored fields through the falsy
default. -/
def loadSnapshot (d : StoredDoc) : Balance :=
  ⟨coalesceField d.fiat, coalesceField d.coin⟩

/-- Valid amounts are exactly the positive numbers. -/
theorem Amount.isInvalid_false_iff (a : Amount) :
    a.isInvalid = false ↔ ∃ q, a = Amount.num q ∧ 0 < q := by
  cases a <;> simp [Amount.isInvalid, not_le]

/-- Value of an amount that passed the invalid-amount guard is positive. -/
theorem Amount.toRat_pos (a : Amount) (h : a.isInvalid = false) :
    0 < a.toRat := by
  cases a with
  | nan => simp [Amount.isInvalid] at h
  | num q => simpa [Amount.isInvalid, Amount.toRat, not_le] using h

/-- C1: for every balance with fiat >= 0 and coin >= 0 and every intent, if
Ledger.apply accepts the intent at a positive price then the resulting
balance also has fiat >= 0 and coin >= 0. -/
theorem ledger_preserves_nonneg (b : Balance) (i : Intent) (price : ℚ)
    (hf : 0 ≤ b.fiat) (hc : 0 ≤ b.coin) (hp : 0 < price) (b' : Balance)
    (h : Ledger.apply b i price = .ok b') : 0 ≤ b'.fiat ∧ 0 ≤ b'.coin := by
  cases i with
  | Deposit a =>
      simp only [Ledger.apply] at h
      split_ifs at h with hinv
      rw [Except.ok.injEq] at h
      subst h
      have ht := Amount.toRat_pos a (by simpa using hinv)
      exact ⟨by show 0 ≤ b.fiat + a.toRat; linarith, hc⟩
  | Buy a =>
      simp only [Ledger.apply] at h
      split_ifs at h with hinv hlt
      rw [Except.ok.injEq] at h
      subst h
      have ht := Amount.toRat_pos a (by simpa using hinv)
      push_neg at hlt
      constructor
      · show 0 ≤ b.fiat - a.toRat
        linarith
      · show 0 ≤ b.coin + a.toRat / price
        have hd : 0 ≤ a.toRat / price := div_nonneg ht.le hp.le
        linarith
  | Sell a =>
      simp only [Ledger.apply] at h
      split_ifs at h with hinv hlt
      rw [Except.ok.injEq] at h
      subst h
      have ht := Amount.toRat_pos a (by simpa using hinv)
      push_neg at hlt
      constructor
      · show 0 ≤ b.fiat + a.toRat
        linarith
      · show 0 ≤ b.coin - a.toRat / price
        linarith
  | Withdraw a =>
      simp only [Ledger.apply] at h
      split_ifs at h with hmin
      rw [Except.ok.injEq] at h
      subst h
      exact ⟨hf, le_refl 0⟩

/-- C1 witness: a concrete accepted deposit keeps both fields nonnegative. -/
theorem ledger_preserves_nonneg_witness :
    0 ≤ (Balance.mk 1010 0).fiat ∧ 0 ≤ (Balance.mk 1010 0).coin :=
  ledger_preserves_nonneg ⟨1000, 0⟩ (.Deposit (.num 10)) 68500
    (by norm_num) (by norm_num) (by norm_num) ⟨1010, 0⟩
    (by norm_num [Ledger.apply, Amount.isInvalid, Amount.toRat])

/-- Invalid amounts are exactly NaN and the nonpositive numbers. -/
theorem Amount.isInvalid_true_iff (a : Amount) :
    a.isInvalid = true ↔ a = Amount.nan ∨ ∃ q, a = Amount.num q ∧ q ≤ 0 := by
  cases a <;> simp [Amount.isInvalid]

/-- C2: Buy rejects InvalidAmount exactly for NaN or nonpositive amounts;
for a positive amount it rejects InsufficientFiat exactly when fiat < amount
(so amount equal to fiat is accepted) and otherwise debits the amount from
fiat and credits amount divided by price to coin. -/
theorem buy_characterization (b : Balance) (a : Amount) (price : ℚ) :
    (Ledger.apply b (.Buy a) price = .error .InvalidAmount ↔
      a = Amount.nan ∨ ∃ q, a = Amount.num q ∧ q ≤ 0) ∧
    ∀ q, a = Amount.num q → 0 < q →
      ((Ledger.apply b (.Buy a) price = .error .InsufficientFiat ↔
          b.fiat < q) ∧
        (q ≤ b.fiat →
          Ledger.apply b (.Buy a) price =
            .ok ⟨b.fiat - q, b.coin + q / price⟩)) := by
  constructor
  · rw [← Amount.isInvalid_true_iff]
    simp only [Ledger.apply]
    split_ifs with hinv hlt
    · simp [hinv]
    · simp [hinv]
    · simp [hinv]
  · rintro q rfl hq
    have hinv : Amount.isInvalid (Amount.num q) = false := by
      simp [Amount.isInvalid, not_le.mpr hq]
    have htr : Amount.toRat (Amount.num q) = q := rfl
    constructor
    · simp only [Ledger.apply, hinv, Bool.false_eq_true, if_false, htr]
      split_ifs with hlt
      · simp [hlt]
      · simp [hlt]
    · intro hle
      simp only [Ledger.apply, hinv, Bool.false_eq_true, if_false, htr]
      rw [if_neg (not_lt.mpr hle)]

/-- C2 witness: Scenario A, buying 500 from a 1000 fiat balance at price
68500 is accepted with the stated result. -/
theorem buy_characterization_witness :
    Ledger.apply ⟨1000, 0⟩ (.Buy (.num 500)) 68500 =
      .ok ⟨1000 - 500, 0 + 500 / 68500⟩ :=
  ((buy_characterization ⟨1000, 0⟩ (.num 500) 68500).2 500 rfl
    (by norm_num)).2 (by norm_num)

/-- C3: Sell rejects InvalidAmount exactly for NaN or nonpositive amounts;
for a positive amount it rejects InsufficientCoin exactly when
coin < amount / price (so coinsToSell equal to coin is accepted) and
otherwise credits the amount to fiat and debits amount / price from coin. -/
theorem sell_characterization (b : Balance) (a : Amount) (price : ℚ) :
    (Ledger.apply b (.Sell a) price = .error .InvalidAmount ↔
      a = Amount.nan ∨ ∃ q, a = Amount.num q ∧ q ≤ 0) ∧
    ∀ q, a = Amount.num q → 0 < q →
      ((Ledger.apply b (.Sell a) price = .error .InsufficientCoin ↔
          b.coin < q / price) ∧
        (q / price ≤ b.coin →
          Ledger.apply b (.Sell a) price =
            .ok ⟨b.fiat + q, b.coin - q / price⟩)) := by
  constructor
  · rw [← Amount.isInvalid_true_iff]
    simp only [Ledger.apply]
    split_ifs with hinv hlt
    · simp [hinv]
    · simp [hinv]
    · simp [hinv]
  · rintro q rfl hq
    have hinv : Amount.isInvalid (Amount.num q) = false := by
      simp [Amount.isInvalid, not_le.mpr hq]
    have htr : Amount.toRat (Amount.num q) = q := rfl
    constructor
    · simp only [Ledger.apply, hinv, Bool.false_eq_true, if_false, htr]
      split_ifs with hlt
      · simp [hlt]
      · simp [hlt]
    · intro hle
      simp only [Ledger.apply, hinv, Bool.false_eq_true, if_false, htr]
      rw [if_neg (not_lt.mpr hle)]

/-- C3 witness: Scenario B, selling 500 of fiat value against a coin balance
of 1/100 at price 68500 is accepted with the stated result. -/
theorem sell_characterization_witness :
    Ledger.apply ⟨0, 1 / 100⟩ (.Sell (.num 500)) 68500 =
      .ok ⟨0 + 500, 1 / 100 - 500 / 68500⟩ :=
  ((sell_characterization ⟨0, 1 / 100⟩ (.num 500) 68500).2 500 rfl
    (by norm_num)).2 (by norm_num)

/-- C6: Deposit rejects InvalidAmount exactly for NaN or nonpositive
amounts; a positive amount is always accepted, credited to fiat, with coin
unchanged. -/
theorem deposit_characterization (b : Balance) (a : Amount) (price : ℚ) :
    (Ledger.apply b (.Deposit a) price = .error .InvalidAmount ↔
      a = Amount.nan ∨ ∃ q, a = Amount.num q ∧ q ≤ 0) ∧
    ∀ q, a = Amount.num q → 0 < q →
      Ledger.apply b (.Deposit a) price = .ok ⟨b.fiat + q, b.coin⟩ := by
  constructor
  · rw [← Amount.isInvalid_true_iff]
    simp only [Ledger.apply]
    split_ifs with hinv
    · simp [hinv]
    · simp [hinv]
  · rintro q rfl hq
    have hinv : Amount.isInvalid (Amount.num q) = false := by
      simp [Amount.isInvalid, not_le.mpr hq]
    simp [Ledger.apply, hinv, Amount.toRat]

/-- C6 witness: a concrete 10 deposit on a 1000 fiat balance. -/
theorem deposit_characterization_witness :
    Ledger.apply ⟨1000, 0⟩ (.Deposit (.num 10)) 68500 =
      .ok ⟨1000 + 10, 0⟩ :=
  (deposit_characterization ⟨1000, 0⟩ (.num 10) 68500).2 10 rfl (by norm_num)

/-- C4: Withdraw ignores the supplied amount and the price, rejects
BelowMinimum exactly when coin is below the threshold of 100, and otherwise
zeroes the entire coin balance leaving fiat unchanged. -/
theorem withdraw_characterization (b : Balance) (a a' : Amount)
    (price price' : ℚ) :
    Ledger.apply b (.Withdraw a) price =
      Ledger.apply b (.Withdraw a') price' ∧
    (MIN_WITHDRAWAL_AMOUNT : ℚ) = 100 ∧
    (Ledger.apply b (.Withdraw a) price = .error .BelowMinimum ↔
      b.coin < MIN_WITHDRAWAL_AMOUNT) ∧
    (MIN_WITHDRAWAL_AMOUNT ≤ b.coin →
      Ledger.apply b (.Withdraw a) price = .ok ⟨b.fiat, 0⟩) := by
  refine ⟨rfl, rfl, ?_, ?_⟩
  · simp only [Ledger.apply]
    split_ifs with hmin
    · simp [hmin]
    · simp [hmin]
  · intro hle
    simp only [Ledger.apply]
    rw [if_neg (not_lt.mpr hle)]

/-- C4 witness: Scenario E, withdrawing from a 150 coin balance is accepted
and zeroes the coin balance with fiat unchanged. -/
theorem withdraw_characterization_witness :
    Ledger.apply ⟨0, 150⟩ (.Withdraw (.num 1)) 68500 = .ok ⟨0, 0⟩ :=
  (withdraw_characterization ⟨0, 150⟩ (.num 1) (.num 2) 68500 1).2.2.2
    (by norm_num [MIN_WITHDRAWAL_AMOUNT])

/-- C5: buying a positive affordable fiat amount and then selling the same
fiat amount at the same positive price returns a valid balance exactly to
its pre-buy value. -/
theorem buy_sell_round_trip (b : Balance) (a price : ℚ)
    (ha : 0 < a) (hf : a ≤ b.fiat) (hp : 0 < price) (hc : 0 ≤ b.coin) :
    (Ledger.apply b (.Buy (.num a)) price).bind
      (fun b1 => Ledger.apply b1 (.Sell (.num a)) price) = .ok b := by
  obtain ⟨f, c⟩ := b
  have hinv : Amount.isInvalid (Amount.num a) = false := by
    simp [Amount.isInvalid, not_le.mpr ha]
  have htr : Amount.toRat (Amount.num a) = a := rfl
  simp only [Ledger.apply, hinv, Bool.false_eq_true, if_false, htr]
  rw [if_neg (not_lt.mpr hf)]
  simp only [Except.bind]
  rw [if_neg (not_lt.mpr (by dsimp only; linarith : a / price ≤
    (Balance.mk (f - a) (c + a / price)).coin))]
  rw [Except.ok.injEq, Balance.mk.injEq]
  constructor <;> dsimp only <;> ring

/-- C5 witness: a concrete 500 buy then 500 sell at price 68500 restores
the 1000 fiat, 0 coin balance. -/
theorem buy_sell_round_trip_witness :
    (Ledger.apply ⟨1000, 0⟩ (.Buy (.num 500)) 68500).bind
      (fun b1 => Ledger.apply b1 (.Sell (.num 500)) 68500) =
      .ok ⟨1000, 0⟩ :=
  buy_sell_round_trip ⟨1000, 0⟩ 500 68500 (by norm_num) (by norm_num)
    (by norm_num) (by norm_num)

/-- C7: an accepted Buy or Sell at a positive price conserves total value,
fiat plus coin times price. -/
theorem trade_conserves_value (b b' : Balance) (a : Amount) (price : ℚ)
    (hp : 0 < price)
    (h : Ledger.apply b (.Buy a) price = .ok b' ∨
      Ledger.apply b (.Sell a) price = .ok b') :
    b'.fiat + b'.coin * price = b.fiat + b.coin * price := by
  have hpne : price ≠ 0 := ne_of_gt hp
  cases h with
  | inl h =>
      simp only [Ledger.apply] at h
      split_ifs at h with hinv hlt
      rw [Except.ok.injEq] at h
      subst h
      show b.fiat - a.toRat + (b.coin + a.toRat / price) * price = _
      rw [add_mul, div_mul_cancel₀ _ hpne]
      ring
  | inr h =>
      simp only [Ledger.apply] at h
      split_ifs at h with hinv hlt
      rw [Except.ok.injEq] at h
      subst h
      show b.fiat + a.toRat + (b.coin - a.toRat / price) * price = _
      rw [sub_mul, div_mul_cancel₀ _ hpne]
      ring

/-- C7 witness: the concrete accepted buy of Scenario A conserves value. -/
theorem trade_conserves_value_witness :
    (Balance.mk 500 (500 / 68500)).fiat +
        (Balance.mk 500 (500 / 68500)).coin * 68500 =
      (Balance.mk 1000 0).fiat + (Balance.mk 1000 0).coin * 68500 :=
  trade_conserves_value ⟨1000, 0⟩ ⟨500, 500 / 68500⟩ (.num 500) 68500
    (by norm_num)
    (Or.inl (by norm_num [Ledger.apply, Amount.isInvalid, Amount.toRat]))

/-- Session-level dispatch reaches updateBalance only through the handlers;
when the db or the user id is absent, updateBalance does nothing at all. -/
theorem updateBalance_notReady (st : SessionState) (nf nc : ℚ) (m : Msg)
    (h : (!st.hasDb || !st.hasUser) = true) :
    updateBalance st nf nc m = (st, none) := by
  simp [updateBalance, h]

/-- C8: whenever the ledger rejects an intent, the session emits no store
write, leaves the balance snapshot unchanged, and only sets the message to
the rejection reason. -/
theorem rejected_intent_no_write (st : SessionState) (i : Intent)
    (r : RejectReason)
    (h : Ledger.apply st.userBalance i SIMULATED_COIN_PRICE = .error r) :
    TradeSession.execute st i =
      ({ st with message := rejectMessage r }, none) := by
  cases i with
  | Deposit a =>
      simp only [Ledger.apply] at h
      split_ifs at h with hinv
      rw [Except.error.injEq] at h
      subst h
      simp [TradeSession.execute, handleSimulatedDeposit, hinv, rejectMessage]
  | Buy a =>
      simp only [Ledger.apply] at h
      split_ifs at h with hinv hlt
      · rw [Except.error.injEq] at h
        subst h
        simp [TradeSession.execute, handleBuy, hinv, rejectMessage]
      · rw [Except.error.injEq] at h
        subst h
        simp [TradeSession.execute, handleBuy, hinv, hlt, rejectMessage]
  | Sell a =>
      simp only [Ledger.apply] at h
      split_ifs at h with hinv hlt
      · rw [Except.error.injEq] at h
        subst h
        simp [TradeSession.execute, handleSell, hinv, rejectMessage]
      · rw [Except.error.injEq] at h
        subst h
        simp [TradeSession.execute, handleSell, hinv, hlt, rejectMessage]
  | Withdraw a =>
      simp only [Ledger.apply] at h
      split_ifs at h with hmin
      rw [Except.error.injEq] at h
      subst h
      simp [TradeSession.execute, handleWithdraw, hmin, rejectMessage]

/-- C8 witness: Scenario C, buying 100 from a 50 fiat balance is rejected
as insufficient fiat with no write and the balance unchanged. -/
theorem rejected_intent_no_write_witness :
    TradeSession.execute ⟨true, true, ⟨50, 0⟩, Msg.empty⟩
        (.Buy (.num 100)) =
      (⟨true, true, ⟨50, 0⟩, Msg.insufficientFiat⟩, none) :=
  rejected_intent_no_write ⟨true, true, ⟨50, 0⟩, Msg.empty⟩
    (.Buy (.num 100)) .InsufficientFiat
    (by norm_num [Ledger.apply, Amount.isInvalid, Amount.toRat])

/-- C9 counterexample: with the db absent, a valid deposit is dropped
silently; no NotReady message is surfaced, the message stays empty. -/
theorem notReady_message_counterexample :
    (TradeSession.execute ⟨false, true, ⟨1000, 0⟩, Msg.empty⟩
        (.Deposit (.num 10))).1.message = Msg.empty ∧
    Msg.empty ≠ Msg.notReady := by
  constructor
  · norm_num [TradeSession.execute, handleSimulatedDeposit, updateBalance,
      Amount.isInvalid]
  · simp

/-- C9 amended: when the user identity or the store connection is absent,
the session performs no store write and leaves the balance snapshot
unchanged; an intent the ledger accepts is dropped with the whole state
unchanged and no message (in particular no NotReady message), while ledger
rejections still set their rejection message. -/
theorem notReady_no_write (st : SessionState) (i : Intent)
    (h : st.hasDb = false ∨ st.hasUser = false) :
    (TradeSession.execute st i).2 = none ∧
    (TradeSession.execute st i).1.userBalance = st.userBalance ∧
    ∀ b', Ledger.apply st.userBalance i SIMULATED_COIN_PRICE = .ok b' →
      TradeSession.execute st i = (st, none) := by
  have hdb : (!st.hasDb || !st.hasUser) = true := by
    rcases h with h | h <;> simp [h]
  cases i with
  | Deposit a =>
      simp only [TradeSession.execute, handleSimulatedDeposit]
      split_ifs with hinv
      · exact ⟨rfl, rfl, fun b' hb => by simp [Ledger.apply, hinv] at hb⟩
      · rw [updateBalance_notReady _ _ _ _ hdb]
        exact ⟨rfl, rfl, fun b' hb => rfl⟩
  | Buy a =>
      simp only [TradeSession.execute, handleBuy]
      split_ifs with hinv hlt
      · exact ⟨rfl, rfl, fun b' hb => by simp [Ledger.apply, hinv] at hb⟩
      · exact ⟨rfl, rfl, fun b' hb => by
          simp [Ledger.apply, hinv, hlt] at hb⟩
      · rw [updateBalance_notReady _ _ _ _ hdb]
        exact ⟨rfl, rfl, fun b' hb => rfl⟩
  | Sell a =>
      simp only [TradeSession.execute, handleSell]
      split_ifs with hinv hlt
      · exact ⟨rfl, rfl, fun b' hb => by simp [Ledger.apply, hinv] at hb⟩
      · exact ⟨rfl, rfl, fun b' hb => by
          simp [Ledger.apply, hinv, hlt] at hb⟩
      · rw [updateBalance_notReady _ _ _ _ hdb]
        exact ⟨rfl, rfl, fun b' hb => rfl⟩
  | Withdraw a =>
      simp only [TradeSession.execute, handleWithdraw]
      split_ifs with hmin
      · exact ⟨rfl, rfl, fun b' hb => by simp [Ledger.apply, hmin] at hb⟩
      · rw [updateBalance_notReady _ _ _ _ hdb]
        exact ⟨rfl, rfl, fun b' hb => rfl⟩

/-- C9 witness: with the db absent, a concrete valid deposit emits no write
and leaves the balance unchanged. -/
theorem notReady_no_write_witness :
    (TradeSession.execute ⟨false, true, ⟨1000, 0⟩, Msg.empty⟩
        (.Deposit (.num 10))).2 = none ∧
    (TradeSession.execute ⟨false, true, ⟨1000, 0⟩, Msg.empty⟩
        (.Deposit (.num 10))).1.userBalance = ⟨1000, 0⟩ :=
  ⟨(notReady_no_write ⟨false, true, ⟨1000, 0⟩, Msg.empty⟩
      (.Deposit (.num 10)) (Or.inl rfl)).1,
    (notReady_no_write ⟨false, true, ⟨1000, 0⟩, Msg.empty⟩
      (.Deposit (.num 10)) (Or.inl rfl)).2.1⟩

/-- C10: the snapshot listener loads each stored field through a falsy
default: an absent, NaN or zero field is loaded as 0, and any other number
is loaded unchanged. -/
theorem snapshot_falsy_coalesce (d : StoredDoc) :
    ((d.fiat = none ∨ d.fiat = some Amount.nan ∨
        d.fiat = some (Amount.num 0)) → (loadSnapshot d).fiat = 0) ∧
    (∀ q, d.fiat = some (Amount.num q) → q ≠ 0 →
      (loadSnapshot d).fiat = q) ∧
    ((d.coin = none ∨ d.coin = some Amount.nan ∨
        d.coin = some (Amount.num 0)) → (loadSnapshot d).coin = 0) ∧
    (∀ q, d.coin = some (Amount.num q) → q ≠ 0 →
      (loadSnapshot d).coin = q) := by
  obtain ⟨f, c⟩ := d
  refine ⟨?_, ?_, ?_, ?_⟩
  · rintro (rfl | rfl | rfl) <;> simp [loadSnapshot, coalesceField]
  · rintro q rfl hq
    simp [loadSnapshot, coalesceField, hq]
  · rintro (rfl | rfl | rfl) <;> simp [loadSnapshot, coalesceField]
  · rintro q rfl hq
    simp [loadSnapshot, coalesceField, hq]

/-- C10 witness: a stored NaN fiat loads as 0 and a stored nonzero coin
loads unchanged. -/
theorem snapshot_falsy_coalesce_witness :
    (loadSnapshot ⟨some Amount.nan, some (Amount.num 7)⟩).fiat = 0 ∧
    (loadSnapshot ⟨some Amount.nan, some (Amount.num 7)⟩).coin = 7 :=
  ⟨(snapshot_falsy_coalesce ⟨some Amount.nan, some (Amount.num 7)⟩).1
      (Or.inr (Or.inl rfl)),
    (snapshot_falsy_coalesce ⟨some Amount.nan, some (Amount.num 7)⟩).2.2.2
      7 rfl (by norm_num)⟩
